import Mathlib

set_option autoImplicit false

namespace VectorDb

/-!
Shallow embedding of the vector-database orchestration core
(registry, filter index, coordinator, filtered-search post-processing).

Modelling conventions, shared by all definitions below:
- DashMap and serde_json object maps are modelled as association lists
  with unique keys, accessed through lookupKey and updated through setKey
  (DashMap insert replaces the value stored under an existing key).
- RoaringBitmap is a set of record ids, modelled as a Finset over Nat.
- u32 and u64 ids are modelled as Nat; the `as u32` casts that appear in
  the filtered-search code are modelled explicitly as reduction mod 2^32.
- JSON numbers are modelled as exact integers: no claim in scope depends
  on float rounding, only on a value being numeric or not, so as_f64 and
  the f64-to-f32 cast are modelled as the identity on the number.
-/

/-- Association-list lookup: first entry whose key equals the argument.
Models DashMap::get and serde_json map lookup. -/
def lookupKey {α β : Type} [DecidableEq α] : List (α × β) → α → Option β
  | [], _ => none
  | (k, v) :: rest, a => if k = a then some v else lookupKey rest a

/-- Association-list store: replaces the value under the key when present
(first occurrence), appends a fresh entry otherwise. Models DashMap::insert
and the DashMap entry-or-insert API followed by an in-place write. -/
def setKey {α β : Type} [DecidableEq α] : List (α × β) → α → β → List (α × β)
  | [], a, b => [(a, b)]
  | (k, v) :: rest, a, b => if k = a then (a, b) :: rest else (k, v) :: setKey rest a b

/-! ## Filter index (src/src/core/index/filter_index.rs)

The source type is FilterIndex { int_field_filter: DashMap<String, DashMap<i64, RoaringBitmap>> }.
It is modelled as a nested association list; bitmaps are Finset Nat. -/

/-- Operation enum of filter_index.rs (Equal / NotEqual). -/
inductive Operation where
  | Equal
  | NotEqual

/-- FilterIndex state: field name to (field value to bitmap of record ids). -/
def FilterIndex : Type := List (String × List (Int × Finset ℕ))

/-- FilterIndex::new (filter_index.rs lines 28-32): the empty map. -/
def FilterIndex.new : FilterIndex := []

/-- Stale-value removal step of FilterIndex::update_int_field_filter
(filter_index.rs lines 91-96): when old_value is Some and a bucket exists for
it, remove the id from that bucket; otherwise leave the entry unchanged. -/
def remove_old (entry : List (Int × Finset ℕ)) (old_value : Option Int) (id : ℕ) :
    List (Int × Finset ℕ) :=
  match old_value with
  | some v =>
    match lookupKey entry v with
    | some bitmap => setKey entry v (bitmap.erase id)
    | none => entry
  | none => entry

/-- Insertion step of FilterIndex::update_int_field_filter (filter_index.rs
lines 98-101): entry(new_value).or_insert_with(RoaringBitmap::new).insert(id),
modelled as inserting the id into the existing bucket or a fresh empty one. -/
def insert_new (entry : List (Int × Finset ℕ)) (new_value : Int) (id : ℕ) :
    List (Int × Finset ℕ) :=
  setKey entry new_value (insert id ((lookupKey entry new_value).getD ∅))

/-- FilterIndex::update_int_field_filter (filter_index.rs lines 67-104).
The source gets or lazily creates the field map (entry or_insert_with, line
86-89), removes the id from the old-value bucket when applicable, then
unconditionally inserts the id into the new-value bucket. The source always
returns Ok so the embedding returns the new state directly. -/
def update_int_field_filter (fi : FilterIndex) (field : String) (old_value : Option Int)
    (new_value : Int) (id : ℕ) : FilterIndex :=
  setKey fi field (insert_new (remove_old ((lookupKey fi field).getD []) old_value id) new_value id)

/-- FilterIndex::get_int_field_filter_bitmap (filter_index.rs lines 34-65).
The source takes a mutable result bitmap and returns Result<()>; the embedding
returns the pair (status, result bitmap after the call). When the field is
absent the source returns an error before touching the bitmap. Equal ORs the
stored bucket for the value into the bitmap when that bucket exists; NotEqual
ORs every bucket of the field whose key differs from the value. The source
only reads the FilterIndex (a DashMap get), which the embedding reflects by
not producing any new FilterIndex state. -/
def get_int_field_filter_bitmap (fi : FilterIndex) (field : String) (op : Operation)
    (value : Int) (result_bitmap : Finset ℕ) : Except String Unit × Finset ℕ :=
  match lookupKey fi field with
  | none => (Except.error ("int_field_filter not get " ++ field), result_bitmap)
  | some data =>
    match op with
    | Operation.Equal =>
      match lookupKey data value with
      | some entry => (Except.ok (), result_bitmap ∪ entry)
      | none => (Except.ok (), result_bitmap)
    | Operation.NotEqual =>
      (Except.ok (), data.foldl (fun acc p => if p.1 = value then acc else acc ∪ p.2) result_bitmap)

/-- Observation: whether the bucket for the given value under the given field
contains the id (false when the field or the bucket is absent). -/
def inBucket (fi : FilterIndex) (field : String) (value : Int) (id : ℕ) : Bool :=
  match lookupKey ((lookupKey fi field).getD []) value with
  | none => false
  | some bm => decide (id ∈ bm)

/-- Entry-level version of inBucket, for reasoning below the field map. -/
def entryHas (entry : List (Int × Finset ℕ)) (value : Int) (id : ℕ) : Bool :=
  match lookupKey entry value with
  | none => false
  | some bm => decide (id ∈ bm)

/-- One call to FilterIndex::update_int_field_filter, as issued by a caller. -/
structure UpdateCall where
  field : String
  old_value : Option Int
  new_value : Int
  id : ℕ

/-- Sequential application of update calls to a FilterIndex state. -/
def applyUpdates (fi : FilterIndex) : List UpdateCall → FilterIndex
  | [] => fi
  | c :: rest => applyUpdates (update_int_field_filter fi c.field c.old_value c.new_value c.id) rest

/-- Exclusivity of the given field and id: the id lies in at most one
value-bucket of the field. -/
def ExclusiveAt (fi : FilterIndex) (f : String) (i : ℕ) : Prop :=
  ∀ v w : Int, inBucket fi f v i = true → inBucket fi f w i = true → v = w

/-- Well-tracked sequence of update calls with respect to a field and id:
whenever a call names this field and id while the id currently occupies a
bucket of the field, the call passes that bucket value as old_value. -/
def TrackedSeq (fi : FilterIndex) (f : String) (i : ℕ) : List UpdateCall → Prop
  | [] => True
  | c :: rest =>
      (c.field = f → c.id = i → ∀ v : Int, inBucket fi f v i = true → c.old_value = some v) ∧
      TrackedSeq (update_int_field_filter fi c.field c.old_value c.new_value c.id) f i rest

/-- IndexType enum of index_factory.rs lines 16-22. -/
inductive IndexType where
  | FLAT
  | HNSW
  | UNKNOWN
  | USEARCH
deriving DecidableEq

/-- MetricType enum of index_factory.rs lines 41-48. -/
inductive MetricType where
  | InnerProduct
  | L2
deriving DecidableEq

/-- IndexKey struct of index_factory.rs lines 24-29. -/
structure IndexKey where
  index_type : IndexType
  dim : ℕ
  metric_type : MetricType
deriving DecidableEq

/-- IndexHandle, reduced to the identity of the backend instance it aliases:
built_id is the value of the allocation counter at the build() call that
constructed the instance. -/
structure IndexHandle where
  built_id : ℕ
deriving DecidableEq

/-- IndexFactory state: the key-to-handle map plus the allocation counter. -/
structure IndexFactory where
  index_map : List (IndexKey × IndexHandle)
  next_build : ℕ
deriving DecidableEq

/-- IndexFactory::init (index_factory.rs lines 75-163). FLAT builds a Faiss
index for either metric and inserts it; HNSW builds only under L2 and errors
otherwise; USEARCH builds for either metric and inserts it; UNKNOWN errors.
Every successful branch calls builder.build() (a fresh construction, counter
bump) and then DashMap::insert, which replaces any handle already stored under
the key. The source never checks whether the key is present. -/
def IndexFactory.init (s : IndexFactory) (index_type : IndexType) (dim : ℕ)
    (_max_elements : ℕ) (metric_type : MetricType) : Except String IndexFactory :=
  match index_type with
  | IndexType.FLAT =>
    Except.ok { index_map := setKey s.index_map ⟨index_type, dim, metric_type⟩ ⟨s.next_build⟩,
                next_build := s.next_build + 1 }
  | IndexType.HNSW =>
    match metric_type with
    | MetricType.L2 =>
      Except.ok { index_map := setKey s.index_map ⟨index_type, dim, metric_type⟩ ⟨s.next_build⟩,
                  next_build := s.next_build + 1 }
    | _ => Except.error "Unknown metric type"
  | IndexType.USEARCH =>
    Except.ok { index_map := setKey s.index_map ⟨index_type, dim, metric_type⟩ ⟨s.next_build⟩,
                next_build := s.next_build + 1 }
  | _ => Except.error "Unknown index type"

/-- IndexFactory::get_index (index_factory.rs lines 165-167): map lookup, the
returned handle is a clone aliasing the stored instance. -/
def IndexFactory.get_index (s : IndexFactory) (index_key : IndexKey) : Option IndexHandle :=
  lookupKey s.index_map index_key

/-- Registry state produced by global_index_factory before any init call. -/
def emptyFactory : IndexFactory := ⟨[], 0⟩

/-- One call to IndexFactory::init as issued by a caller. -/
structure InitCall where
  index_type : IndexType
  dim : ℕ
  max_elements : ℕ
  metric_type : MetricType

/-- Sequential application of init calls; a failed init leaves the registry
state unchanged (the error branches of the source return before any insert). -/
def applyInits (s : IndexFactory) : List InitCall → IndexFactory
  | [] => s
  | c :: rest =>
    match s.init c.index_type c.dim c.max_elements c.metric_type with
    | Except.ok s2 => applyInits s2 rest
    | Except.error _ => applyInits s rest

/-- Combinations of index type and metric for which init builds an index. -/
def init_supported : IndexType → MetricType → Bool
  | IndexType.FLAT, _ => true
  | IndexType.HNSW, MetricType.L2 => true
  | IndexType.HNSW, MetricType.InnerProduct => false
  | IndexType.USEARCH, _ => true
  | IndexType.UNKNOWN, _ => false

/-- Every key stored in a registry state reachable from the empty registry by
init calls names a supported type-and-metric combination. -/
def RegistrySupported (s : IndexFactory) : Prop :=
  ∀ k h, lookupKey s.index_map k = some h → init_supported k.index_type k.metric_type = true

/-! ## Vector database coordinator (src/src/db/vector_database.rs, scalar_storage.rs)

The JSON document model mirrors serde_json::Value; numbers are exact integers
(see the modelling conventions above). The scalar store is modelled as a map
from id to document: insert_scalar serializes the document and puts it under
the id, get_scalar reads the bytes back and parses them, and the two are
mutually inverse for every document that serde can produce, so the embedding
collapses the byte round-trip (the spec treats the byte encoding as an
implementation choice of the opaque store). The registry lookup performed by
upsert through global_index_factory plus the backend instance owned by each
handle are modelled together as a map from IndexKey to the backend state. -/

/-- JSON document (serde_json::Value). -/
inductive Json where
  | null
  | bool (b : Bool)
  | num (n : Int)
  | str (s : String)
  | arr (elems : List Json)
  | obj (fields : List (String × Json))

/-- Value::get on an object key: field lookup on objects, None otherwise. -/
def Json.get (j : Json) (key : String) : Option Json :=
  match j with
  | Json.obj fields => lookupKey fields key
  | _ => none

/-- Value::as_array: Some for arrays, None otherwise. -/
def Json.as_array : Json → Option (List Json)
  | Json.arr elems => some elems
  | _ => none

/-- Value::as_f64: Some for numbers, None otherwise; the number itself and the
later f64-to-f32 cast are modelled as the identity. -/
def Json.as_f64 : Json → Option Int
  | Json.num n => some n
  | _ => none

/-- Vector extraction step of VectorDatabase::upsert (vector_database.rs lines
48-58): read the vectors field, require an array, convert each element to a
number, failing on the first non-numeric element. -/
def extract_vectors (data : Json) : Except String (List Int) :=
  match (data.get "vectors").bind Json.as_array with
  | none => Except.error "vectors field not found or not an array"
  | some elems =>
    elems.mapM (fun v =>
      match v.as_f64 with
      | some x => Except.ok x
      | none => Except.error "vector element is not a number")

/-- Backend state owned by one registry handle: FLAT (Faiss IDMap,Flat) and
USEARCH keep a dimension and labelled vectors, HNSW keeps labelled points
(hnsw_rs performs no dimension check on insert and supports no removal). -/
inductive IndexState where
  | flat (dim : ℕ) (vecs : List (ℕ × List Int))
  | hnsw (pts : List (ℕ × List Int))
  | usearch (dim : ℕ) (vecs : List (ℕ × List Int))
deriving DecidableEq

/-- FaissIndex::insert_vectors (faiss_index.rs lines 42-47): add_with_ids
appends the labelled vector; the backend rejects a vector whose length is not
the index dimension. -/
def flat_insert (dim : ℕ) (vecs : List (ℕ × List Int)) (data : List Int) (label : ℕ) :
    Except String (List (ℕ × List Int)) :=
  if data.length = dim then Except.ok (vecs ++ [(label, data)])
  else Except.error "faiss add dimension mismatch"

/-- FaissIndex::remove_vectors (faiss_index.rs lines 131-138): remove_ids with
a batch selector drops every vector whose label is listed. -/
def flat_remove (vecs : List (ℕ × List Int)) (ids : List ℕ) : List (ℕ × List Int) :=
  vecs.filter (fun p => decide (p.1 ∉ ids))

/-- HnswIndex::insert_vectors (hnsw_index.rs lines 16-19): insert_data appends
the labelled point and always succeeds; a duplicate label adds a second point. -/
def hnsw_insert (pts : List (ℕ × List Int)) (data : List Int) (label : ℕ) :
    List (ℕ × List Int) :=
  pts ++ [(label, data)]

/-- VectorDatabase state: the registry with its backend instances, and the
scalar store contents. -/
structure VectorDatabase where
  indexes : List (IndexKey × IndexState)
  scalar : List (ℕ × Json)

/-- ScalarStorage::get_scalar (scalar_storage.rs lines 14-22) as used by query
and by the metadata-exists check of upsert. -/
def VectorDatabase.query (db : VectorDatabase) (id : ℕ) : Option Json :=
  lookupKey db.scalar id

/-- Stale-vector removal step of VectorDatabase::upsert (vector_database.rs
lines 30-46), reached only when metadata already exists for the id: FLAT
downcasts to FaissIndex and removes the vector of this id; HNSW logs
unimplemented and removes nothing; UNKNOWN errors; the wildcard arm (USEARCH)
does nothing. A failed downcast panics in the source and is modelled as an
error (unreachable for registries built by init). -/
def upsert_remove_stale (indexes : List (IndexKey × IndexState)) (index_key : IndexKey)
    (ist : IndexState) (id : ℕ) : Except String (List (IndexKey × IndexState)) :=
  match index_key.index_type with
  | IndexType.FLAT =>
    match ist with
    | IndexState.flat dim vecs =>
      Except.ok (setKey indexes index_key (IndexState.flat dim (flat_remove vecs [id])))
    | _ => Except.error "downcast to FaissIndex failed"
  | IndexType.HNSW => Except.ok indexes
  | IndexType.UNKNOWN => Except.error "index type unknown"
  | IndexType.USEARCH => Except.ok indexes

/-- Vector insertion step of VectorDatabase::upsert (vector_database.rs lines
62-75): FLAT inserts through the Faiss wrapper, HNSW through the hnsw wrapper,
UNKNOWN errors, and the wildcard arm (USEARCH) inserts nothing. -/
def upsert_insert_vector (indexes : List (IndexKey × IndexState)) (index_key : IndexKey)
    (new_vectors : List Int) (id : ℕ) : Except String (List (IndexKey × IndexState)) :=
  match index_key.index_type, lookupKey indexes index_key with
  | IndexType.FLAT, some (IndexState.flat dim vecs) =>
    match flat_insert dim vecs new_vectors id with
    | Except.ok vecs2 => Except.ok (setKey indexes index_key (IndexState.flat dim vecs2))
    | Except.error e => Except.error e
  | IndexType.FLAT, _ => Except.error "downcast to FaissIndex failed"
  | IndexType.HNSW, some (IndexState.hnsw pts) =>
    Except.ok (setKey indexes index_key (IndexState.hnsw (hnsw_insert pts new_vectors id)))
  | IndexType.HNSW, _ => Except.error "downcast to HnswIndex failed"
  | IndexType.UNKNOWN, _ => Except.error "index type unknown"
  | IndexType.USEARCH, _ => Except.ok indexes

/-- VectorDatabase::upsert (vector_database.rs lines 24-80). The source
mutates the shared index instance in place and returns Result<()>; the
embedding returns the pair (status, state after the call), so mutations that
happened before a failure point stay visible in the returned state. Order of
the source: resolve the index (error when absent), remove the stale vector
when metadata already exists for the id, extract the vectors array, insert the
new vector, and only then persist the metadata document to the scalar store. -/
def VectorDatabase.upsert (db : VectorDatabase) (id : ℕ) (data : Json)
    (index_key : IndexKey) : Except String Unit × VectorDatabase :=
  match lookupKey db.indexes index_key with
  | none => (Except.error "index not found", db)
  | some ist =>
    match (if (lookupKey db.scalar id).isSome
           then upsert_remove_stale db.indexes index_key ist id
           else Except.ok db.indexes) with
    | Except.error e => (Except.error e, db)
    | Except.ok idx1 =>
      match extract_vectors data with
      | Except.error e => (Except.error e, { db with indexes := idx1 })
      | Except.ok new_vectors =>
        match upsert_insert_vector idx1 index_key new_vectors id with
        | Except.error e => (Except.error e, { db with indexes := idx1 })
        | Except.ok idx2 =>
          (Except.ok (), { indexes := idx2, scalar := setKey db.scalar id data })

/-! ## Filtered-search post-processing
(src/src/core/index/faiss_index.rs, hnsw_index.rs, usearch_index.rs)

Each wrapper first runs the backend native search on (query, k) and then
post-filters the candidate list by the predicate. The backend call itself is
external (spec section 6); its output, the unfiltered top-k candidate list,
enters the embedding as the labels and distances arguments, and the embedded
functions are the post-processing the wrappers perform on it. Distances are an
opaque type parameter since no claim depends on their values. -/

/-- Modulus of the `as u32` cast applied to candidate ids before the predicate. -/
def u32_mod : ℕ := 4294967296

/-- Post-filter of FaissIndex::search_vectors_filter (faiss_index.rs lines
91-114): faiss labels are optional (Idx::get is None for invalid slots); a
pair passes when the label is valid and the predicate accepts its u32 cast. -/
def search_vectors_filter_faiss {α : Type} (labels : List (Option ℕ)) (distances : List α)
    (filter : ℕ → Bool) : List (Option ℕ) × List α :=
  ((labels.zip distances).filter (fun p =>
    match p.1 with
    | some key => filter (key % u32_mod)
    | none => false)).unzip

/-- Post-filter of HnswIndex::search_vectors_filter (hnsw_index.rs lines
37-61): a pair passes when the predicate accepts the u32 cast of its label. -/
def search_vectors_filter_hnsw {α : Type} (indices : List ℕ) (distances : List α)
    (filter : ℕ → Bool) : List ℕ × List α :=
  ((indices.zip distances).filter (fun p => filter (p.1 % u32_mod))).unzip

/-- Post-filter of UsearchIndex::filter_exact_search (usearch_index.rs lines
19-46): keys are u64 and the predicate takes them directly; after filtering,
take(count) caps the result length. -/
def filter_exact_search_usearch {α : Type} (keys : List ℕ) (distances : List α)
    (count : ℕ) (filter : ℕ → Bool) : List ℕ × List α :=
  (((keys.zip distances).filter (fun p => filter p.1)).take count).unzip

theorem lookupKey_setKey_self {α β : Type} [DecidableEq α] (l : List (α × β)) (a : α) (b : β) :
    lookupKey (setKey l a b) a = some b := by
  induction l with
  | nil => simp [setKey, lookupKey]
  | cons hd tl ih =>
    obtain ⟨k, v⟩ := hd
    by_cases h : k = a <;> simp [setKey, lookupKey, h, ih]

theorem lookupKey_setKey_ne {α β : Type} [DecidableEq α] (l : List (α × β)) (a c : α) (b : β)
    (h : c ≠ a) : lookupKey (setKey l a b) c = lookupKey l c := by
  induction l with
  | nil => simp [setKey, lookupKey, Ne.symm h]
  | cons hd tl ih =>
    obtain ⟨k, v⟩ := hd
    by_cases hk : k = a
    · subst hk
      simp [setKey, lookupKey, Ne.symm h]
    · simp [setKey, lookupKey, hk, ih]

theorem inBucket_eq_entryHas (fi : FilterIndex) (field : String) (value : Int) (id : ℕ) :
    inBucket fi field value id = entryHas ((lookupKey fi field).getD []) value id := rfl

theorem entryHas_setKey (entry : List (Int × Finset ℕ)) (k v : Int) (bm : Finset ℕ) (id : ℕ) :
    entryHas (setKey entry k bm) v id =
      if v = k then decide (id ∈ bm) else entryHas entry v id := by
  by_cases h : v = k
  · subst h
    simp [entryHas, lookupKey_setKey_self]
  · simp [entryHas, lookupKey_setKey_ne entry k v bm h, h]

theorem entryHas_insert_new_self (entry : List (Int × Finset ℕ)) (nv : Int) (v : Int) (id : ℕ) :
    entryHas (insert_new entry nv id) v id = ((v = nv) || entryHas entry v id) := by
  rw [insert_new, entryHas_setKey]
  by_cases h : v = nv
  · simp [h]
  · simp [h]

theorem entryHas_insert_new_other (entry : List (Int × Finset ℕ)) (nv : Int) (v : Int)
    (j i : ℕ) (hij : i ≠ j) : entryHas (insert_new entry nv j) v i = entryHas entry v i := by
  rw [insert_new, entryHas_setKey]
  by_cases h : v = nv
  · subst h
    cases hb : lookupKey entry v with
    | none => simp [entryHas, hb, hij]
    | some bm => simp [entryHas, hb, hij]
  · simp [h]

theorem entryHas_remove_old_self (entry : List (Int × Finset ℕ)) (ov : Option Int) (v : Int)
    (id : ℕ) :
    entryHas (remove_old entry ov id) v id = (entryHas entry v id && !(ov = some v : Bool)) := by
  match ov with
  | none => simp [remove_old]
  | some w =>
    simp only [remove_old]
    cases hb : lookupKey entry w with
    | none =>
      by_cases hvw : v = w
      · subst hvw
        simp [entryHas, hb]
      · simp [Option.some.injEq, Ne.symm hvw]
    | some bm =>
      rw [entryHas_setKey]
      by_cases hvw : v = w
      · subst hvw
        simp [entryHas, hb]
      · simp [hvw, Option.some.injEq, Ne.symm hvw]

theorem entryHas_remove_old_other (entry : List (Int × Finset ℕ)) (ov : Option Int) (v : Int)
    (j i : ℕ) (hij : i ≠ j) : entryHas (remove_old entry ov j) v i = entryHas entry v i := by
  match ov with
  | none => simp [remove_old]
  | some w =>
    simp only [remove_old]
    cases hb : lookupKey entry w with
    | none => rfl
    | some bm =>
      rw [entryHas_setKey]
      by_cases hvw : v = w
      · subst hvw
        simp [entryHas, hb, Finset.mem_erase, hij]
      · simp [hvw]

/-- Characterization of one update call, for the field and id it names: after
the call the id sits in the new-value bucket, sits in a different bucket v
exactly when it already did and old_value did not name v. -/
theorem inBucket_update_self (fi : FilterIndex) (f : String) (ov : Option Int) (nv : Int)
    (i : ℕ) (v : Int) :
    inBucket (update_int_field_filter fi f ov nv i) f v i = true ↔
      (v = nv ∨ (inBucket fi f v i = true ∧ ov ≠ some v)) := by
  rw [inBucket_eq_entryHas, update_int_field_filter, lookupKey_setKey_self]
  simp only [Option.getD_some]
  rw [entryHas_insert_new_self, entryHas_remove_old_self, inBucket_eq_entryHas]
  by_cases h : v = nv
  · simp [h]
  · by_cases ho : ov = some v <;> simp [h, ho]

/-- An update naming a different id never changes whether a bucket of the same
field contains this id. -/
theorem inBucket_update_other_id (fi : FilterIndex) (f : String) (ov : Option Int) (nv : Int)
    (j i : ℕ) (hij : i ≠ j) (v : Int) :
    inBucket (update_int_field_filter fi f ov nv j) f v i = inBucket fi f v i := by
  rw [inBucket_eq_entryHas, update_int_field_filter, lookupKey_setKey_self]
  simp only [Option.getD_some]
  rw [entryHas_insert_new_other _ _ _ _ _ hij, entryHas_remove_old_other _ _ _ _ _ hij,
    inBucket_eq_entryHas]

/-- An update naming a different field never changes the buckets of this field. -/
theorem inBucket_update_other_field (fi : FilterIndex) (g f : String) (ov : Option Int)
    (nv : Int) (j : ℕ) (hgf : f ≠ g) (v : Int) (i : ℕ) :
    inBucket (update_int_field_filter fi g ov nv j) f v i = inBucket fi f v i := by
  rw [inBucket_eq_entryHas, update_int_field_filter, lookupKey_setKey_ne _ _ _ _ hgf,
    inBucket_eq_entryHas]

theorem exclusive_step (fi : FilterIndex) (f : String) (i : ℕ) (c : UpdateCall)
    (hex : ExclusiveAt fi f i)
    (htr : c.field = f → c.id = i → ∀ v : Int, inBucket fi f v i = true → c.old_value = some v) :
    ExclusiveAt (update_int_field_filter fi c.field c.old_value c.new_value c.id) f i := by
  by_cases hf : c.field = f
  · subst hf
    by_cases hi : c.id = i
    · subst hi
      intro v w hv hw
      rw [inBucket_update_self] at hv hw
      rcases hv with hv | ⟨hv, hv2⟩
      · rcases hw with hw | ⟨hw, hw2⟩
        · rw [hv, hw]
        · exact absurd (htr rfl rfl w hw) hw2
      · exact absurd (htr rfl rfl v hv) hv2
    · intro v w hv hw
      rw [inBucket_update_other_id _ _ _ _ _ _ (fun h => hi h.symm)] at hv hw
      exact hex v w hv hw
  · intro v w hv hw
    rw [inBucket_update_other_field _ _ _ _ _ _ (fun h => hf h.symm)] at hv hw
    exact hex v w hv hw

theorem exclusive_applyUpdates (calls : List UpdateCall) (fi : FilterIndex) (f : String) (i : ℕ)
    (hex : ExclusiveAt fi f i) (htr : TrackedSeq fi f i calls) :
    ExclusiveAt (applyUpdates fi calls) f i := by
  induction calls generalizing fi with
  | nil => exact hex
  | cons c rest ih =>
    exact ih _ (exclusive_step fi f i c hex htr.1) htr.2

/-- Membership in the NotEqual fold of get_int_field_filter_bitmap. -/
theorem mem_foldl_notEqual (l : List (Int × Finset ℕ)) (init : Finset ℕ) (value : Int) (j : ℕ) :
    j ∈ l.foldl (fun acc p => if p.1 = value then acc else acc ∪ p.2) init ↔
      j ∈ init ∨ ∃ p ∈ l, p.1 ≠ value ∧ j ∈ p.2 := by
  induction l generalizing init with
  | nil => simp
  | cons hd tl ih =>
    by_cases h : hd.1 = value
    · simp only [List.foldl_cons, if_pos h, ih]
      constructor
      · rintro (hj | hj)
        · exact Or.inl hj
        · exact Or.inr (by rcases hj with ⟨p, hp, hne, hjp⟩; exact ⟨p, List.mem_cons_of_mem _ hp, hne, hjp⟩)
      · rintro (hj | ⟨p, hp, hne, hjp⟩)
        · exact Or.inl hj
        · rcases List.mem_cons.mp hp with rfl | hp
          · exact absurd h hne
          · exact Or.inr ⟨p, hp, hne, hjp⟩
    · simp only [List.foldl_cons, if_neg h, ih, Finset.mem_union]
      constructor
      · rintro ((hj | hj) | hj)
        · exact Or.inl hj
        · exact Or.inr ⟨hd, List.mem_cons_self _ _, h, hj⟩
        · exact Or.inr (by rcases hj with ⟨p, hp, hne, hjp⟩; exact ⟨p, List.mem_cons_of_mem _ hp, hne, hjp⟩)
      · rintro (hj | ⟨p, hp, hne, hjp⟩)
        · exact Or.inl (Or.inl hj)
        · rcases List.mem_cons.mp hp with rfl | hp
          · exact Or.inl (Or.inr hjp)
          · exact Or.inr ⟨p, hp, hne, hjp⟩

/-- A field never named by any call stays absent from the map. -/
theorem lookupKey_applyUpdates_absent (calls : List UpdateCall) (fi : FilterIndex)
    (field : String) (habs : lookupKey fi field = none)
    (hcalls : ∀ c ∈ calls, c.field ≠ field) :
    lookupKey (applyUpdates fi calls) field = none := by
  induction calls generalizing fi with
  | nil => exact habs
  | cons c rest ih =>
    refine ih _ ?_ (fun d hd => hcalls d (List.mem_cons_of_mem _ hd))
    rw [update_int_field_filter,
      lookupKey_setKey_ne _ _ _ _ (fun h => hcalls c (List.mem_cons_self _ _) h.symm)]
    exact habs

/-- C3 counterexample: two update calls for field age and id 1, both passing
old_value = None, leave id 1 in the 10-bucket and in the 20-bucket at once, so
the claim that an arbitrary sequence of update calls keeps the id in at most
one value-bucket of the field is false on the code. -/
theorem filter_bucket_exclusivity_cex :
    inBucket (applyUpdates FilterIndex.new
        [⟨"age", none, 10, 1⟩, ⟨"age", none, 20, 1⟩]) "age" 10 1 = true ∧
    inBucket (applyUpdates FilterIndex.new
        [⟨"age", none, 10, 1⟩, ⟨"age", none, 20, 1⟩]) "age" 20 1 = true ∧
    (10 : Int) ≠ 20 := by
  refine ⟨?_, ?_, ?_⟩ <;> decide

/-- C3 amended: for every field f and id i, after any sequence of update calls
in which each call naming f and i passes as old_value the value of the bucket
of f currently holding i (whenever such a bucket exists), i is a member of at
most one value-bucket of f. -/
theorem filter_bucket_exclusivity (calls : List UpdateCall) (f : String) (i : ℕ)
    (htr : TrackedSeq FilterIndex.new f i calls) :
    ExclusiveAt (applyUpdates FilterIndex.new calls) f i := by
  refine exclusive_applyUpdates calls FilterIndex.new f i ?_ htr
  intro v w hv _
  rw [show inBucket FilterIndex.new f v i = false from rfl] at hv
  exact absurd hv Bool.false_ne_true

/-- Witness input for the amended C3 theorem: the tracked two-call scenario of
the spec (set age to 30 for id 1, then move it to 45 passing old_value 30). -/
theorem filter_bucket_exclusivity_witness :
    ExclusiveAt (applyUpdates FilterIndex.new
      [⟨"age", none, 30, 1⟩, ⟨"age", some 30, 45, 1⟩]) "age" 1 := by
  refine filter_bucket_exclusivity _ "age" 1 ⟨?_, ?_, trivial⟩
  · intro _ _ v hv
    rw [show inBucket FilterIndex.new "age" v 1 = false from rfl] at hv
    exact absurd hv Bool.false_ne_true
  · intro _ _ v hv
    rcases (inBucket_update_self _ _ _ _ _ _).mp hv with rfl | ⟨hfalse, _⟩
    · rfl
    · rw [show inBucket FilterIndex.new "age" v 1 = false from rfl] at hfalse
      exact absurd hfalse Bool.false_ne_true

/-- C7: when the field is present in the FilterIndex, Equal lookup ORs exactly
the stored bucket for the value into the caller bitmap (the empty set when no
bucket for the value exists), NotEqual lookup ORs the union of all buckets of
the field except the one for the value, and both return Ok. The embedding of
get_int_field_filter_bitmap is a pure function of the FilterIndex, matching the
read-only DashMap access of the source. -/
theorem filter_lookup_semantics (fi : FilterIndex) (field : String) (value : Int)
    (rb : Finset ℕ) (data : List (Int × Finset ℕ)) (hfield : lookupKey fi field = some data) :
    get_int_field_filter_bitmap fi field Operation.Equal value rb =
      (Except.ok (), rb ∪ (lookupKey data value).getD ∅) ∧
    (get_int_field_filter_bitmap fi field Operation.NotEqual value rb).1 = Except.ok () ∧
    (∀ j : ℕ, j ∈ (get_int_field_filter_bitmap fi field Operation.NotEqual value rb).2 ↔
      j ∈ rb ∨ ∃ p ∈ data, p.1 ≠ value ∧ j ∈ p.2) := by
  refine ⟨?_, ?_, ?_⟩
  · simp only [get_int_field_filter_bitmap, hfield]
    cases hv : lookupKey data value with
    | none => simp
    | some e => simp
  · simp [get_int_field_filter_bitmap, hfield]
  · intro j
    simp only [get_int_field_filter_bitmap, hfield]
    exact mem_foldl_notEqual data rb value j

/-- Witness input for the C7 theorem: a two-bucket age field. -/
theorem filter_lookup_semantics_witness :
    get_int_field_filter_bitmap [("age", [(30, {1}), (45, {2})])] "age" Operation.Equal 30 ∅ =
      (Except.ok (), ∅ ∪ (lookupKey [(30, ({1} : Finset ℕ)), (45, {2})] 30).getD ∅) ∧
    (get_int_field_filter_bitmap [("age", [(30, {1}), (45, {2})])] "age"
      Operation.NotEqual 30 ∅).1 = Except.ok () ∧
    (∀ j : ℕ, j ∈ (get_int_field_filter_bitmap [("age", [(30, {1}), (45, {2})])] "age"
        Operation.NotEqual 30 ∅).2 ↔
      j ∈ (∅ : Finset ℕ) ∨
        ∃ p ∈ ([(30, {1}), (45, {2})] : List (Int × Finset ℕ)), p.1 ≠ 30 ∧ j ∈ p.2) :=
  filter_lookup_semantics [("age", [(30, {1}), (45, {2})])] "age" 30 ∅
    [(30, {1}), (45, {2})] rfl

/-- C8: an update removes the id from the old-value bucket when old_value is
Some and that bucket exists, then unconditionally inserts the id into the
new-value bucket, creating the field map and the bucket lazily; concretely,
after update(age, None, 30, 1) the 30-bucket holds id 1, and after a further
update(age, Some 30, 45, 1) the 30-bucket is empty and the 45-bucket holds
id 1. -/
theorem filter_update_semantics :
    (∀ (fi : FilterIndex) (f : String) (ov : Option Int) (nv : Int) (i : ℕ) (v : Int),
      inBucket (update_int_field_filter fi f ov nv i) f v i = true ↔
        (v = nv ∨ (inBucket fi f v i = true ∧ ov ≠ some v))) ∧
    inBucket (update_int_field_filter FilterIndex.new "age" none 30 1) "age" 30 1 = true ∧
    inBucket (update_int_field_filter (update_int_field_filter FilterIndex.new "age" none 30 1)
      "age" (some 30) 45 1) "age" 30 1 = false ∧
    lookupKey ((lookupKey (update_int_field_filter
      (update_int_field_filter FilterIndex.new "age" none 30 1)
      "age" (some 30) 45 1) "age").getD []) 30 = some ∅ ∧
    inBucket (update_int_field_filter (update_int_field_filter FilterIndex.new "age" none 30 1)
      "age" (some 30) 45 1) "age" 45 1 = true := by
  refine ⟨inBucket_update_self, ?_, ?_, ?_, ?_⟩ <;> decide

/-- C10: a lookup on a field that no update call ever named returns the
field-absent error for every operation and value, and hands back the caller
bitmap unchanged. -/
theorem lookup_unset_field_errors (calls : List UpdateCall) (field : String) (op : Operation)
    (value : Int) (rb : Finset ℕ) (hcalls : ∀ c ∈ calls, c.field ≠ field) :
    get_int_field_filter_bitmap (applyUpdates FilterIndex.new calls) field op value rb =
      (Except.error ("int_field_filter not get " ++ field), rb) := by
  have h := lookupKey_applyUpdates_absent calls FilterIndex.new field rfl hcalls
  simp [get_int_field_filter_bitmap, h]

/-- Witness input for the C10 theorem: after one update on field age, a lookup
on the untouched field name errors and keeps the bitmap. -/
theorem lookup_unset_field_errors_witness :
    get_int_field_filter_bitmap (applyUpdates FilterIndex.new [⟨"age", none, 30, 1⟩])
        "name" Operation.Equal 0 {7} =
      (Except.error ("int_field_filter not get " ++ "name"), {7}) :=
  lookup_unset_field_errors [⟨"age", none, 30, 1⟩] "name" Operation.Equal 0 {7} (by decide)

/-! ## Index registry (src/src/core/index_factory.rs)

IndexFactory { index_map: DashMap<IndexKey, IndexHandle> } is modelled as an
association list together with an allocation counter: every builder build()
call constructs a fresh backend instance, modelled by tagging the produced
handle with the current counter value and bumping the counter. Two handles
alias the same underlying backend instance exactly when they carry the same
tag. The max_elements argument and the usearch options only tune the backend
being built and are irrelevant to registry behaviour, so the options struct is
omitted. -/

/-- Combined lookup-after-store equation for association lists. -/
theorem lookupKey_setKey {α β : Type} [DecidableEq α] (l : List (α × β)) (a : α) (b : β)
    (c : α) : lookupKey (setKey l a b) c = if c = a then some b else lookupKey l c := by
  by_cases h : c = a
  · subst h
    simp [lookupKey_setKey_self]
  · simp [h, lookupKey_setKey_ne _ _ _ _ h]

theorem applyInits_append (s : IndexFactory) (l1 l2 : List InitCall) :
    applyInits s (l1 ++ l2) = applyInits (applyInits s l1) l2 := by
  induction l1 generalizing s with
  | nil => rfl
  | cons c rest ih =>
    rw [List.cons_append, applyInits, applyInits]
    cases s.init c.index_type c.dim c.max_elements c.metric_type with
    | ok s2 => exact ih s2
    | error e => exact ih s

theorem registrySupported_init (s : IndexFactory) (it : IndexType) (dim me : ℕ)
    (mt : MetricType) (s2 : IndexFactory) (hs : RegistrySupported s)
    (hinit : s.init it dim me mt = Except.ok s2) : RegistrySupported s2 := by
  have step : ∀ (hsup : init_supported it mt = true),
      s2 = { index_map := setKey s.index_map ⟨it, dim, mt⟩ ⟨s.next_build⟩,
             next_build := s.next_build + 1 } → RegistrySupported s2 := by
    rintro hsup rfl
    intro k h hk
    rw [lookupKey_setKey] at hk
    split at hk
    · rename_i hke
      subst hke
      exact hsup
    · exact hs k h hk
  cases it with
  | FLAT => exact step rfl (Except.ok.inj hinit).symm
  | HNSW =>
    cases mt with
    | L2 => exact step rfl (Except.ok.inj hinit).symm
    | InnerProduct => exact Except.noConfusion hinit
  | USEARCH => exact step rfl (Except.ok.inj hinit).symm
  | UNKNOWN => exact Except.noConfusion hinit

theorem registrySupported_applyInits (calls : List InitCall) (s : IndexFactory)
    (hs : RegistrySupported s) : RegistrySupported (applyInits s calls) := by
  induction calls generalizing s with
  | nil => exact hs
  | cons c rest ih =>
    rw [applyInits]
    cases hinit : s.init c.index_type c.dim c.max_elements c.metric_type with
    | ok s2 => exact ih s2 (registrySupported_init s _ _ _ _ s2 hs hinit)
    | error e => exact ih s hs

theorem registrySupported_empty : RegistrySupported emptyFactory := by
  intro k h hk
  exact Option.noConfusion hk

/-- C1 counterexample: on the empty registry, a first FLAT init stores the
handle of instance 0; the second init with the identical (index_type, dim,
metric_type) triple succeeds but builds instance 1 (the allocation counter
moves from 1 to 2) and replaces the entry, so get_index returns a different
handle before and after the second init. This refutes the claim that a second
init is a no-op that constructs no new backend instance. -/
theorem registry_init_idempotence_cex :
    IndexFactory.init ⟨[], 0⟩ IndexType.FLAT 4 100 MetricType.L2 =
      Except.ok ⟨[(⟨IndexType.FLAT, 4, MetricType.L2⟩, ⟨0⟩)], 1⟩ ∧
    IndexFactory.init ⟨[(⟨IndexType.FLAT, 4, MetricType.L2⟩, ⟨0⟩)], 1⟩
        IndexType.FLAT 4 100 MetricType.L2 =
      Except.ok ⟨[(⟨IndexType.FLAT, 4, MetricType.L2⟩, ⟨1⟩)], 2⟩ ∧
    IndexFactory.get_index ⟨[(⟨IndexType.FLAT, 4, MetricType.L2⟩, ⟨0⟩)], 1⟩
      ⟨IndexType.FLAT, 4, MetricType.L2⟩ = some ⟨0⟩ ∧
    IndexFactory.get_index ⟨[(⟨IndexType.FLAT, 4, MetricType.L2⟩, ⟨1⟩)], 2⟩
      ⟨IndexType.FLAT, 4, MetricType.L2⟩ = some ⟨1⟩ ∧
    (⟨1⟩ : IndexHandle) ≠ ⟨0⟩ :=
  ⟨rfl, rfl, rfl, rfl, by decide⟩

/-- C1 amended: a second init with a key already present is a success, but it
constructs a new backend instance rather than none: the allocation counter is
bumped, the registry entry is replaced, and get_index afterwards returns the
handle of the instance built by this init, which differs from every handle
built earlier (in particular from the handle get_index returned before). -/
theorem registry_reinit_replaces (s s2 : IndexFactory) (it : IndexType) (dim me : ℕ)
    (mt : MetricType) (hinit : s.init it dim me mt = Except.ok s2) :
    s2.get_index ⟨it, dim, mt⟩ = some ⟨s.next_build⟩ ∧
    s2.next_build = s.next_build + 1 ∧
    ∀ h : IndexHandle, h.built_id < s.next_build →
      s2.get_index ⟨it, dim, mt⟩ ≠ some h := by
  have step : s2 = { index_map := setKey s.index_map ⟨it, dim, mt⟩ ⟨s.next_build⟩,
                     next_build := s.next_build + 1 } →
      s2.get_index ⟨it, dim, mt⟩ = some ⟨s.next_build⟩ ∧
      s2.next_build = s.next_build + 1 ∧
      ∀ h : IndexHandle, h.built_id < s.next_build →
        s2.get_index ⟨it, dim, mt⟩ ≠ some h := by
    rintro rfl
    refine ⟨?_, rfl, ?_⟩
    · simp [IndexFactory.get_index, lookupKey_setKey_self]
    · intro h hlt heq
      simp only [IndexFactory.get_index, lookupKey_setKey_self, Option.some.injEq] at heq
      rw [← heq] at hlt
      exact Nat.lt_irrefl _ hlt
  cases it with
  | FLAT => exact step (Except.ok.inj hinit).symm
  | HNSW =>
    cases mt with
    | L2 => exact step (Except.ok.inj hinit).symm
    | InnerProduct => exact Except.noConfusion hinit
  | USEARCH => exact step (Except.ok.inj hinit).symm
  | UNKNOWN => exact Except.noConfusion hinit

/-- Witness input for the amended C1 theorem: the second FLAT init of the
counterexample scenario, applied to the registry produced by the first. -/
theorem registry_reinit_replaces_witness :
    IndexFactory.get_index ⟨[(⟨IndexType.FLAT, 4, MetricType.L2⟩, ⟨1⟩)], 2⟩
      ⟨IndexType.FLAT, 4, MetricType.L2⟩ = some ⟨1⟩ ∧
    (⟨[(⟨IndexType.FLAT, 4, MetricType.L2⟩, ⟨1⟩)], 2⟩ : IndexFactory).next_build = 1 + 1 ∧
    ∀ h : IndexHandle, h.built_id < 1 →
      IndexFactory.get_index ⟨[(⟨IndexType.FLAT, 4, MetricType.L2⟩, ⟨1⟩)], 2⟩
        ⟨IndexType.FLAT, 4, MetricType.L2⟩ ≠ some h :=
  registry_reinit_replaces ⟨[(⟨IndexType.FLAT, 4, MetricType.L2⟩, ⟨0⟩)], 1⟩
    ⟨[(⟨IndexType.FLAT, 4, MetricType.L2⟩, ⟨1⟩)], 2⟩ IndexType.FLAT 4 100 MetricType.L2 rfl

/-- C5: for a key whose index_type and metric_type combination is unsupported
(UNKNOWN, or HNSW with InnerProduct), init on any registry reachable from the
empty one returns a typed error, no entry is stored under that key, and
get_index for the key is None both before and after the failed init. -/
theorem failed_init_registry_unchanged (calls : List InitCall) (it : IndexType)
    (dim me : ℕ) (mt : MetricType) (hunsup : init_supported it mt = false) :
    (∃ e, (applyInits emptyFactory calls).init it dim me mt = Except.error e) ∧
    (applyInits emptyFactory calls).get_index ⟨it, dim, mt⟩ = none ∧
    (applyInits emptyFactory (calls ++ [⟨it, dim, me, mt⟩])).get_index ⟨it, dim, mt⟩ = none := by
  have hsupp := registrySupported_applyInits calls emptyFactory registrySupported_empty
  have hnone : (applyInits emptyFactory calls).get_index ⟨it, dim, mt⟩ = none := by
    cases hk : lookupKey (applyInits emptyFactory calls).index_map ⟨it, dim, mt⟩ with
    | none => exact hk
    | some h =>
      have := hsupp ⟨it, dim, mt⟩ h hk
      rw [hunsup] at this
      exact Bool.noConfusion this
  have herr : ∃ e, (applyInits emptyFactory calls).init it dim me mt = Except.error e := by
    cases it with
    | FLAT => exact Bool.noConfusion hunsup
    | HNSW =>
      cases mt with
      | L2 => exact Bool.noConfusion hunsup
      | InnerProduct => exact ⟨"Unknown metric type", rfl⟩
    | USEARCH => exact Bool.noConfusion hunsup
    | UNKNOWN => exact ⟨"Unknown index type", rfl⟩
  refine ⟨herr, hnone, ?_⟩
  obtain ⟨e, he⟩ := herr
  rw [applyInits_append, applyInits, he, applyInits]
  exact hnone

/-- Witness input for the C5 theorem: after one successful FLAT init, an init
with the UNKNOWN index type fails and the UNKNOWN key stays absent. -/
theorem failed_init_registry_unchanged_witness :
    (∃ e, (applyInits emptyFactory [⟨IndexType.FLAT, 4, 100, MetricType.L2⟩]).init
      IndexType.UNKNOWN 4 100 MetricType.L2 = Except.error e) ∧
    (applyInits emptyFactory [⟨IndexType.FLAT, 4, 100, MetricType.L2⟩]).get_index
      ⟨IndexType.UNKNOWN, 4, MetricType.L2⟩ = none ∧
    (applyInits emptyFactory ([⟨IndexType.FLAT, 4, 100, MetricType.L2⟩] ++
        [⟨IndexType.UNKNOWN, 4, 100, MetricType.L2⟩])).get_index
      ⟨IndexType.UNKNOWN, 4, MetricType.L2⟩ = none :=
  failed_init_registry_unchanged [⟨IndexType.FLAT, 4, 100, MetricType.L2⟩]
    IndexType.UNKNOWN 4 100 MetricType.L2 rfl

/-- C2: whenever upsert fails, with any error (vectors field absent or not an
array, non-numeric element, backend insert rejection, unresolved index,
unknown index type), the scalar store is exactly what it was before the call:
the metadata write is the last step and is never reached on a failure, so the
prior record state is intact. -/
theorem upsert_error_scalar_unchanged (db : VectorDatabase) (id : ℕ) (data : Json)
    (key : IndexKey) (e : String) (herr : (db.upsert id data key).1 = Except.error e) :
    ((db.upsert id data key).2).scalar = db.scalar := by
  cases h1 : lookupKey db.indexes key with
  | none => simp [VectorDatabase.upsert, h1]
  | some ist =>
    cases h2 : (if (lookupKey db.scalar id).isSome
                then upsert_remove_stale db.indexes key ist id
                else Except.ok db.indexes) with
    | error e2 => simp [VectorDatabase.upsert, h1, h2]
    | ok idx1 =>
      cases h3 : extract_vectors data with
      | error e3 => simp [VectorDatabase.upsert, h1, h2, h3]
      | ok new_vectors =>
        cases h4 : upsert_insert_vector idx1 key new_vectors id with
        | error e4 => simp [VectorDatabase.upsert, h1, h2, h3, h4]
        | ok idx2 => simp [VectorDatabase.upsert, h1, h2, h3, h4] at herr

/-- Witness input for the C2 theorem: a registered FLAT index and a document
with no vectors field; upsert fails and the empty scalar store stays empty. -/
theorem upsert_error_scalar_unchanged_witness :
    ((VectorDatabase.mk [(⟨IndexType.FLAT, 2, MetricType.L2⟩, IndexState.flat 2 [])] []).upsert
        1 (Json.obj [("name", Json.str "sora")]) ⟨IndexType.FLAT, 2, MetricType.L2⟩).1 =
      Except.error "vectors field not found or not an array" ∧
    (((VectorDatabase.mk [(⟨IndexType.FLAT, 2, MetricType.L2⟩, IndexState.flat 2 [])] []).upsert
        1 (Json.obj [("name", Json.str "sora")]) ⟨IndexType.FLAT, 2, MetricType.L2⟩).2).scalar =
      [] :=
  ⟨rfl, upsert_error_scalar_unchanged _ 1 _ _ _ rfl⟩

/-- C6: when upsert succeeds, a subsequent query for the id reads back exactly
the upserted document (which carries its vectors array), since the source
persists the data value unchanged; query is embedded as a pure function of the
state, matching the read-only get_scalar it wraps, so it mutates nothing. -/
theorem upsert_query_roundtrip (db : VectorDatabase) (id : ℕ) (data : Json)
    (key : IndexKey) (hok : (db.upsert id data key).1 = Except.ok ()) :
    ((db.upsert id data key).2).query id = some data := by
  cases h1 : lookupKey db.indexes key with
  | none => simp [VectorDatabase.upsert, h1] at hok
  | some ist =>
    cases h2 : (if (lookupKey db.scalar id).isSome
                then upsert_remove_stale db.indexes key ist id
                else Except.ok db.indexes) with
    | error e2 => simp [VectorDatabase.upsert, h1, h2] at hok
    | ok idx1 =>
      cases h3 : extract_vectors data with
      | error e3 => simp [VectorDatabase.upsert, h1, h2, h3] at hok
      | ok new_vectors =>
        cases h4 : upsert_insert_vector idx1 key new_vectors id with
        | error e4 => simp [VectorDatabase.upsert, h1, h2, h3, h4] at hok
        | ok idx2 =>
          simp [VectorDatabase.upsert, h1, h2, h3, h4, VectorDatabase.query,
            lookupKey_setKey_self]

/-- Witness input for the C6 theorem: a successful first upsert of id 1 with a
three-element vector into a FLAT dimension-3 index. -/
theorem upsert_query_roundtrip_witness :
    ((VectorDatabase.mk [(⟨IndexType.FLAT, 3, MetricType.L2⟩, IndexState.flat 3 [])] []).upsert
        1 (Json.obj [("name", Json.str "sora"),
            ("vectors", Json.arr [Json.num 1, Json.num 2, Json.num 3])])
        ⟨IndexType.FLAT, 3, MetricType.L2⟩).1 = Except.ok () ∧
    (((VectorDatabase.mk [(⟨IndexType.FLAT, 3, MetricType.L2⟩, IndexState.flat 3 [])] []).upsert
        1 (Json.obj [("name", Json.str "sora"),
            ("vectors", Json.arr [Json.num 1, Json.num 2, Json.num 3])])
        ⟨IndexType.FLAT, 3, MetricType.L2⟩).2).query 1 =
      some (Json.obj [("name", Json.str "sora"),
        ("vectors", Json.arr [Json.num 1, Json.num 2, Json.num 3])]) :=
  ⟨rfl, upsert_query_roundtrip _ 1 _ _ rfl⟩

/-- C4: failing input for the claim. With an HNSW key registered, id 1 already
present in the scalar store, and a stale point (1, [1,2,3]) in the hnsw
backend, upsert of id 1 with vectors [4,5,6] returns Ok instead of the
unsupported-operation error the claim requires: the removal match arm for HNSW
only logs unimplemented, so the stale point stays in the backend next to the
newly inserted one while the metadata is replaced. -/
theorem hnsw_upsert_existing_skips_stale_removal :
    ((VectorDatabase.mk [(⟨IndexType.HNSW, 3, MetricType.L2⟩, IndexState.hnsw [(1, [1, 2, 3])])]
        [(1, Json.obj [("vectors", Json.arr [Json.num 1, Json.num 2, Json.num 3])])]).upsert
        1 (Json.obj [("vectors", Json.arr [Json.num 4, Json.num 5, Json.num 6])])
        ⟨IndexType.HNSW, 3, MetricType.L2⟩).1 = Except.ok () ∧
    (((VectorDatabase.mk [(⟨IndexType.HNSW, 3, MetricType.L2⟩, IndexState.hnsw [(1, [1, 2, 3])])]
        [(1, Json.obj [("vectors", Json.arr [Json.num 1, Json.num 2, Json.num 3])])]).upsert
        1 (Json.obj [("vectors", Json.arr [Json.num 4, Json.num 5, Json.num 6])])
        ⟨IndexType.HNSW, 3, MetricType.L2⟩).2).indexes =
      [(⟨IndexType.HNSW, 3, MetricType.L2⟩,
        IndexState.hnsw [(1, [1, 2, 3]), (1, [4, 5, 6])])] ∧
    (((VectorDatabase.mk [(⟨IndexType.HNSW, 3, MetricType.L2⟩, IndexState.hnsw [(1, [1, 2, 3])])]
        [(1, Json.obj [("vectors", Json.arr [Json.num 1, Json.num 2, Json.num 3])])]).upsert
        1 (Json.obj [("vectors", Json.arr [Json.num 4, Json.num 5, Json.num 6])])
        ⟨IndexType.HNSW, 3, MetricType.L2⟩).2).query 1 =
      some (Json.obj [("vectors", Json.arr [Json.num 4, Json.num 5, Json.num 6])]) :=
  ⟨rfl, rfl, rfl⟩

/-- C9: for each of the three filtered-search implementations, when the
backend hands back at most k candidates, the filtered result has ids and
distances of equal length at most k, every returned id passes the predicate
(applied through the u32 cast where the source casts), and the returned
(id, distance) pairs form a sublist of the unfiltered candidate pairs, so the
returned count may fall below k. -/
theorem filtered_search_postcondition (α : Type) :
    (∀ (labels : List (Option ℕ)) (distances : List α) (filter : ℕ → Bool) (k : ℕ),
      labels.length ≤ k →
      (search_vectors_filter_faiss labels distances filter).1.length =
        (search_vectors_filter_faiss labels distances filter).2.length ∧
      (search_vectors_filter_faiss labels distances filter).1.length ≤ k ∧
      (∀ l ∈ (search_vectors_filter_faiss labels distances filter).1,
        ∃ key, l = some key ∧ filter (key % u32_mod) = true) ∧
      List.Sublist
        ((search_vectors_filter_faiss labels distances filter).1.zip
          (search_vectors_filter_faiss labels distances filter).2)
        (labels.zip distances)) ∧
    (∀ (indices : List ℕ) (distances : List α) (filter : ℕ → Bool) (k : ℕ),
      indices.length ≤ k →
      (search_vectors_filter_hnsw indices distances filter).1.length =
        (search_vectors_filter_hnsw indices distances filter).2.length ∧
      (search_vectors_filter_hnsw indices distances filter).1.length ≤ k ∧
      (∀ l ∈ (search_vectors_filter_hnsw indices distances filter).1,
        filter (l % u32_mod) = true) ∧
      List.Sublist
        ((search_vectors_filter_hnsw indices distances filter).1.zip
          (search_vectors_filter_hnsw indices distances filter).2)
        (indices.zip distances)) ∧
    (∀ (keys : List ℕ) (distances : List α) (filter : ℕ → Bool) (count : ℕ),
      (filter_exact_search_usearch keys distances count filter).1.length =
        (filter_exact_search_usearch keys distances count filter).2.length ∧
      (filter_exact_search_usearch keys distances count filter).1.length ≤ count ∧
      (∀ l ∈ (filter_exact_search_usearch keys distances count filter).1,
        filter l = true) ∧
      List.Sublist
        ((filter_exact_search_usearch keys distances count filter).1.zip
          (filter_exact_search_usearch keys distances count filter).2)
        (keys.zip distances)) := by
  refine ⟨?_, ?_, ?_⟩
  · intro labels distances filter k hk
    simp only [search_vectors_filter_faiss]
    set fl := (labels.zip distances).filter (fun p =>
      match p.1 with
      | some key => filter (key % u32_mod)
      | none => false) with hfl
    refine ⟨?_, ?_, ?_, ?_⟩
    · simp [List.unzip_eq_map]
    · calc fl.unzip.1.length = fl.length := by simp [List.unzip_eq_map]
        _ ≤ (labels.zip distances).length := List.length_filter_le _ _
        _ ≤ labels.length := by rw [List.length_zip]; exact Nat.min_le_left _ _
        _ ≤ k := hk
    · intro l hl
      rw [List.unzip_eq_map] at hl
      obtain ⟨p, hp, hpl⟩ := List.mem_map.mp hl
      have hmem := List.mem_filter.mp (hfl ▸ hp)
      cases hp1 : p.1 with
      | none => rw [hp1] at hmem; exact Bool.noConfusion hmem.2
      | some key =>
        refine ⟨key, by rw [← hpl, hp1], ?_⟩
        have := hmem.2
        rw [hp1] at this
        exact this
    · rw [List.zip_unzip]
      exact List.filter_sublist _
  · intro indices distances filter k hk
    simp only [search_vectors_filter_hnsw]
    set fl := (indices.zip distances).filter (fun p => filter (p.1 % u32_mod)) with hfl
    refine ⟨?_, ?_, ?_, ?_⟩
    · simp [List.unzip_eq_map]
    · calc fl.unzip.1.length = fl.length := by simp [List.unzip_eq_map]
        _ ≤ (indices.zip distances).length := List.length_filter_le _ _
        _ ≤ indices.length := by rw [List.length_zip]; exact Nat.min_le_left _ _
        _ ≤ k := hk
    · intro l hl
      rw [List.unzip_eq_map] at hl
      obtain ⟨p, hp, hpl⟩ := List.mem_map.mp hl
      have hmem := List.mem_filter.mp (hfl ▸ hp)
      rw [← hpl]
      exact hmem.2
    · rw [List.zip_unzip]
      exact List.filter_sublist _
  · intro keys distances filter count
    simp only [filter_exact_search_usearch]
    set fl := ((keys.zip distances).filter (fun p => filter p.1)).take count with hfl
    refine ⟨?_, ?_, ?_, ?_⟩
    · simp [List.unzip_eq_map]
    · calc fl.unzip.1.length = fl.length := by simp [List.unzip_eq_map]
        _ ≤ count := by rw [hfl, List.length_take]; exact Nat.min_le_left _ _
    · intro l hl
      rw [List.unzip_eq_map] at hl
      obtain ⟨p, hp, hpl⟩ := List.mem_map.mp hl
      have hp2 := List.mem_of_mem_take (hfl ▸ hp)
      have hmem := List.mem_filter.mp hp2
      rw [← hpl]
      exact hmem.2
    · rw [List.zip_unzip]
      exact List.Sublist.trans (List.take_sublist _ _) (List.filter_sublist _)

/-- Witness input for the C9 theorem: three-candidate lists with an integer
distance type and a predicate accepting even ids, at k = 3. -/
theorem filtered_search_postcondition_witness :
    (2 : ℕ) ≤ 3 ∧ (3 : ℕ) ≤ 3 ∧
    ((search_vectors_filter_faiss [some 2, none] ([5, 6] : List Int) (fun n => n % 2 = 0)).1.length =
      (search_vectors_filter_faiss [some 2, none] ([5, 6] : List Int) (fun n => n % 2 = 0)).2.length ∧
     (search_vectors_filter_faiss [some 2, none] ([5, 6] : List Int) (fun n => n % 2 = 0)).1.length ≤ 3 ∧
     (∀ l ∈ (search_vectors_filter_faiss [some 2, none] ([5, 6] : List Int) (fun n => n % 2 = 0)).1,
       ∃ key, l = some key ∧ (fun n => decide (n % 2 = 0)) (key % u32_mod) = true) ∧
     List.Sublist
       ((search_vectors_filter_faiss [some 2, none] ([5, 6] : List Int) (fun n => n % 2 = 0)).1.zip
         (search_vectors_filter_faiss [some 2, none] ([5, 6] : List Int) (fun n => n % 2 = 0)).2)
       (List.zip [some 2, none] ([5, 6] : List Int))) ∧
    ((search_vectors_filter_hnsw [1, 2, 4] ([5, 6, 7] : List Int) (fun n => n % 2 = 0)).1.length =
      (search_vectors_filter_hnsw [1, 2, 4] ([5, 6, 7] : List Int) (fun n => n % 2 = 0)).2.length) ∧
    ((filter_exact_search_usearch [1, 2, 4] ([5, 6, 7] : List Int) 1 (fun n => n % 2 = 0)).1.length ≤ 1) := by
  have h := filtered_search_postcondition Int
  refine ⟨by decide, by decide, ?_, ?_, ?_⟩
  · exact h.1 [some 2, none] [5, 6] (fun n => decide (n % 2 = 0)) 3 (by decide)
  · exact (h.2.1 [1, 2, 4] [5, 6, 7] (fun n => decide (n % 2 = 0)) 3 (by decide)).1
  · exact (h.2.2 [1, 2, 4] [5, 6, 7] (fun n => decide (n % 2 = 0)) 1).2.1

end VectorDb
